import Mathlib

/-!
Verification of the rclone-index HTTP handler (src/api/index.js).

Strings of the JavaScript source are modelled as `List Char`; the handler,
config synthesizer, provisioner and process executor are shallowly embedded
as pure Lean functions over that model.
-/

namespace RcloneIndex

/-! ## String primitives mirroring the JavaScript string operations -/

/-- Split a character list at every occurrence of a separator character,
mirroring JavaScript `String.prototype.split` with a one-character separator.
The result is always nonempty. -/
def splitSep (sep : Char) : List Char → List (List Char)
  | [] => [[]]
  | c :: rest =>
    if c = sep then [] :: splitSep sep rest
    else
      match splitSep sep rest with
      | [] => [[c]]
      | l :: ls => (c :: l) :: ls

/-- Substring containment, mirroring JavaScript `String.prototype.includes`. -/
def containsSub (pat : List Char) : List Char → Bool
  | [] => pat.isEmpty
  | c :: rest => pat.isPrefixOf (c :: rest) || containsSub pat rest

/-- Number of (possibly overlapping) occurrences of a pattern. -/
def countSub (pat : List Char) : List Char → Nat
  | [] => if pat.isEmpty then 1 else 0
  | c :: rest => (if pat.isPrefixOf (c :: rest) then 1 else 0) + countSub pat rest

/-- Fuel-driven worker for `replaceAll`; the fuel bounds the number of steps so
that the recursion is structural and kernel-reducible. -/
def replaceGo (pat repl : List Char) : Nat → List Char → List Char
  | _, [] => []
  | 0, s => s
  | fuel + 1, c :: rest =>
    if pat.isPrefixOf (c :: rest) then
      repl ++ replaceGo pat repl fuel (rest.drop (pat.length - 1))
    else
      c :: replaceGo pat repl fuel rest

/-- Replace every (leftmost, non-overlapping) occurrence of `pat` by `repl`,
mirroring a JavaScript global string replace of a fixed pattern. -/
def replaceAll (pat repl s : List Char) : List Char :=
  match pat with
  | [] => s
  | _ :: _ => replaceGo pat repl s.length s

/-! ## Namespace config synthesizer (`setupConfig`, src/api/index.js 59-86) -/

/-- The literal `'[combine]'` whose presence `setupConfig` tests with
`contents.includes('[combine]')`. -/
def combinePat : List Char := ("[combine]").data

/-- One attempt of the header regex `/^\[([^\]]+)\]/` at a position of the
text whose remaining suffix is given (the `^` anchor is checked by the
caller): an opening bracket, then one or more characters of the class
`[^\]]` — which matches any character except `]`, newlines included, so a
name may span lines — then a closing bracket; yields the capture group. -/
def headerName : List Char → Option (List Char)
  | [] => none
  | c :: rest =>
    if c = Char.ofNat 91 then
      let name := rest.takeWhile (fun x => x ≠ Char.ofNat 93)
      if 0 < name.length ∧ name.length < rest.length then some name else none
    else none

/-- Whether a character is a JavaScript line terminator, after which the
multiline `^` anchor matches: LF, CR, U+2028, U+2029. -/
def isLineTerminator (c : Char) : Bool :=
  (c == Char.ofNat 10) || (c == Char.ofNat 13) || (c == Char.ofNat 8232) || (c == Char.ofNat 8233)

/-- The scan of `contents.match(/^\[([^\]]+)\]/gm)`: walk the text position
by position, attempting the header match wherever the multiline `^` anchor
holds (the start of input, or just after a line terminator); after a match,
scanning resumes at the end of the match (g-flag `lastIndex`), whose last
character is `]`, so the next position is never a line start.  The fuel
bounds the steps (one character is consumed per step, so the text length
suffices) and keeps the recursion structural. -/
def scanHeadersGo : Nat → Bool → List Char → List (List Char)
  | _, _, [] => []
  | 0, _, _ :: _ => []
  | fuel + 1, atLineStart, c :: rest =>
    if atLineStart then
      match headerName (c :: rest) with
      | some name => name :: scanHeadersGo fuel false (rest.drop (name.length + 1))
      | none => scanHeadersGo fuel (isLineTerminator c) rest
    else scanHeadersGo fuel (isLineTerminator c) rest

/-- All section-header names of a config text, in match order: the matches of
`contents.match(/^\[([^\]]+)\]/gm)` with the surrounding brackets stripped
(`r.slice(1, -1)`).  Names may span lines, because `[^\]]` matches newline
characters. -/
def sectionHeaders (s : List Char) : List (List Char) :=
  scanHeadersGo s.length true s

/-- One upstream mapping entry: `name=name:`. -/
def mkUpstream (n : List Char) : List Char :=
  n ++ ("=").data ++ n ++ (":").data

/-- JavaScript `Array.prototype.join` with the given separator. -/
def joinWith (sep : List Char) : List (List Char) → List Char
  | [] => []
  | [x] => x
  | x :: xs => x ++ sep ++ joinWith sep xs

/-- The fixed text prepended to the upstreams list when `setupConfig` appends
the `[combine]` section. -/
def combineTag : List Char := ("\n\n[combine]\ntype = combine\nupstreams = ").data

/-- The combine-section synthesis step of `setupConfig` (lines 74-83): if the
config text does not contain `'[combine]'`, enumerate the section headers and
append a `[combine]` section whose `upstreams` value maps every header name to
itself; if there are no headers (the regex match is null) append nothing. -/
def ensureCombine (contents : List Char) : List Char :=
  if containsSub combinePat contents then contents
  else
    match sectionHeaders contents with
    | [] => contents
    | names => contents ++ combineTag ++ joinWith ((" ").data) (names.map mkUpstream)

/-- Which of the three config sources of `setupConfig` is active: a
`CONFIG_BASE64` blob (decoded content given), a `CONFIG_URL` (unimplemented in
the source; a placeholder is written), or the default placeholder. -/
inductive ConfigSource
  | fromBase64 (content : List Char)
  | fromUrl
  | fromDefault
deriving DecidableEq

/-- The base text `setupConfig` writes to `/tmp/rclone.conf` before the
combine-section synthesis step (lines 62-72). -/
def baseConfigText : ConfigSource → List Char
  | ConfigSource.fromBase64 c => c
  | ConfigSource.fromUrl => ("[combine]\ntype = alias\nremote = dummy").data
  | ConfigSource.fromDefault => ("[combine]\ntype = alias\nremote = dummy").data

/-- `setupConfig` (src/api/index.js 59-86): establish the base config text from
the environment, then run the combine-section synthesis on it.  The returned
value is the final content of `/tmp/rclone.conf`. -/
def setupConfig (src : ConfigSource) : List Char :=
  ensureCombine (baseConfigText src)

/-! ## Bounded process executor (`executeRclone`, src/api/index.js 89-120)

The Promise executor is embedded as a function over the trace of events the
Node event loop delivers for the spawned process: stdout/stderr data chunks,
the `close` event carrying the exit code, and the firing of the 25-second
`setTimeout`.  A Promise settles on the first `resolve`/`reject`; later events
are ignored, which the embedding captures by returning at the first settling
event of the trace. -/

/-- One event delivered to the `executeRclone` Promise executor. -/
inductive PEvent
  | out (chunk : List Char)
  | err (chunk : List Char)
  | close (code : Int)
  | timeout
deriving DecidableEq

/-- Whether an event is a pure data (stream) event, i.e. the process has
neither terminated nor hit the 25-second deadline yet. -/
def isDataEvent : PEvent → Bool
  | PEvent.out _ => true
  | PEvent.err _ => true
  | _ => false

/-- How the `executeRclone` Promise settles. -/
inductive RcloneResult
  | ok (stdout stderr : List Char)
  | exitError (code : Int) (stderr : List Char)
  | timeoutError
deriving DecidableEq

/-- `executeRclone` over an event trace, with the stdout/stderr accumulators:
data events append to the accumulators; the first `close` resolves with the
output on exit code 0 and rejects with the exit-code error otherwise; the
first `timeout` kills the process and rejects with the timeout error
(`reject(new Error('Process timeout'))`).  `none` means the trace ended
without the Promise settling. -/
def executeRclone : List PEvent → List Char → List Char → Option RcloneResult
  | [], _, _ => none
  | PEvent.out s :: rest, o, e => executeRclone rest (o ++ s) e
  | PEvent.err s :: rest, o, e => executeRclone rest o (e ++ s)
  | PEvent.close c :: _, o, e =>
    some (if c = 0 then RcloneResult.ok o e else RcloneResult.exitError c e)
  | PEvent.timeout :: _, _, _ => some RcloneResult.timeoutError

/-! ## Binary provisioner (`setupRclone`, src/api/index.js 6-56)

The filesystem and network side effects are embedded as a world of per-step
outcomes; `setupRclone` threads through them in source order.  Every failure
inside the `try` block reaches the `catch` handler, which calls
`console.error` and rethrows, so every such failure is logged and fatal. -/

/-- Outcome of each effectful step `setupRclone` performs, in source order. -/
structure ProvisionWorld where
  binaryExists : Bool
  fetchOk : Bool
  archiveHasBinary : Bool
  renameOk : Bool
  chmodOk : Bool
  unlinkZipOk : Bool
  extractedDirExists : Bool
  extractedDirIsTmp : Bool
  rmDirOk : Bool
deriving DecidableEq

deriving instance DecidableEq for Except

/-- Result of a `setupRclone` call: the value or error it settles with,
whether the binary sits at `/tmp/rclone` afterwards, and whether the catch
handler logged an error via `console.error`. -/
structure ProvisionOutcome where
  result : Except (List Char) (List Char)
  binaryInstalled : Bool
  loggedError : Bool
deriving DecidableEq

/-- `setupRclone`: return `/tmp/rclone` at once when the file exists;
otherwise download, locate the binary in the archive, extract, move, chmod,
then delete the zip and (when it exists and is not `/tmp` itself) the
extraction directory.  Any step that throws is caught by the handler at line
49, logged, and rethrown, failing the call. -/
def setupRclone (w : ProvisionWorld) : ProvisionOutcome :=
  if w.binaryExists then
    { result := Except.ok (("/tmp/rclone").data), binaryInstalled := true, loggedError := false }
  else if ¬ w.fetchOk then
    { result := Except.error (("Failed to download rclone").data), binaryInstalled := false, loggedError := true }
  else if ¬ w.archiveHasBinary then
    { result := Except.error (("rclone binary not found in archive").data), binaryInstalled := false, loggedError := true }
  else if ¬ w.renameOk then
    { result := Except.error (("rename failed").data), binaryInstalled := false, loggedError := true }
  else if ¬ w.chmodOk then
    { result := Except.error (("chmod failed").data), binaryInstalled := true, loggedError := true }
  else if ¬ w.unlinkZipOk then
    { result := Except.error (("unlink failed").data), binaryInstalled := true, loggedError := true }
  else if w.extractedDirExists ∧ ¬ w.extractedDirIsTmp ∧ ¬ w.rmDirOk then
    { result := Except.error (("rm failed").data), binaryInstalled := true, loggedError := true }
  else
    { result := Except.ok (("/tmp/rclone").data), binaryInstalled := true, loggedError := false }

/-! ## Base64 (Node `Buffer.from(s, 'base64').toString()`) -/

/-- Value of one character of the standard base64 alphabet; characters outside
the alphabet (including padding) are ignored by Node and yield `none`. -/
def b64Val (c : Char) : Option Nat :=
  if Char.ofNat 65 ≤ c ∧ c ≤ Char.ofNat 90 then some (c.toNat - 65)
  else if Char.ofNat 97 ≤ c ∧ c ≤ Char.ofNat 122 then some (c.toNat - 71)
  else if Char.ofNat 48 ≤ c ∧ c ≤ Char.ofNat 57 then some (c.toNat + 4)
  else if c = Char.ofNat 43 then some 62
  else if c = Char.ofNat 47 then some 63
  else none

/-- Regroup a run of 6-bit values into 8-bit bytes; a trailing lone sextet
carries fewer than 8 bits and is dropped. -/
def sextetsToBytes : List Nat → List Nat
  | a :: b :: c :: d :: rest =>
    (a * 4 + b / 16) :: ((b % 16) * 16 + c / 4) :: ((c % 4) * 64 + d) :: sextetsToBytes rest
  | [a, b] => [a * 4 + b / 16]
  | [a, b, c] => [a * 4 + b / 16, (b % 16) * 16 + c / 4]
  | _ => []

/-- Node-style forgiving base64 decode of a character list. -/
def base64Decode (s : List Char) : List Char :=
  (sextetsToBytes (s.filterMap b64Val)).map Char.ofNat

/-- One character of the standard base64 alphabet. -/
def b64Char (n : Nat) : Char :=
  if n < 26 then Char.ofNat (65 + n)
  else if n < 52 then Char.ofNat (97 + (n - 26))
  else if n < 62 then Char.ofNat (48 + (n - 52))
  else if n = 62 then Char.ofNat 43
  else Char.ofNat 47

/-- Standard base64 encoding of a byte list, with padding. -/
def base64EncodeBytes : List Nat → List Char
  | x :: y :: z :: rest =>
    b64Char (x / 4) :: b64Char ((x % 4) * 16 + y / 16) ::
      b64Char ((y % 16) * 4 + z / 64) :: b64Char (z % 64) :: base64EncodeBytes rest
  | [x, y] => [b64Char (x / 4), b64Char ((x % 4) * 16 + y / 16), b64Char ((y % 16) * 4), Char.ofNat 61]
  | [x] => [b64Char (x / 4), b64Char ((x % 4) * 16), Char.ofNat 61, Char.ofNat 61]
  | [] => []

/-- Base64 encoding of an ASCII character list (what a client computes to
build a `Basic` authorization header). -/
def base64Encode (s : List Char) : List Char :=
  base64EncodeBytes (s.map Char.toNat)

/-! ## Listing normalizer (src/api/index.js 240-247) -/

/-- One parsed record of the `rclone lsjson` output. -/
structure RawEntry where
  Name : List Char
  IsDir : Bool
  Size : Option Int
  ModTime : Option (List Char)
deriving DecidableEq

/-- One normalized listing entry as handed to the HTML renderer. -/
structure ListingEntry where
  name : List Char
  url : List Char
  isDir : Bool
  size : Option Int
  modTime : Option (List Char)
deriving DecidableEq

/-- The per-record normalization (lines 241-247): the browsable URL is
`/${requestPath}${requestPath ? '/' : ''}${entry.Name}${entry.IsDir ? '/' : ''}`. -/
def formatEntry (requestPath : List Char) (e : RawEntry) : ListingEntry where
  name := e.Name
  url := ("/").data ++ requestPath ++ (if requestPath.isEmpty then [] else ("/").data)
    ++ e.Name ++ (if e.IsDir then ("/").data else [])
  isDir := e.IsDir
  size := e.Size
  modTime := e.ModTime

/-- `entries.map(...)` over the parsed lsjson records. -/
def formatEntries (requestPath : List Char) (entries : List RawEntry) : List ListingEntry :=
  entries.map (formatEntry requestPath)

/-! ## HTML generation (`generateHTML` and templates, src/api/index.js 123-193) -/

/-- The folder icon markup of an entry row. -/
def folderSvg : List Char :=
  ("<svg width=\"1.5em\" height=\"1em\" version=\"1.1\" viewBox=\"0 0 317 259\"><use xlink:href=\"#folder\"></use></svg>").data

/-- The file icon markup of an entry row. -/
def fileSvg : List Char :=
  ("<svg width=\"1.5em\" height=\"1em\" version=\"1.1\" viewBox=\"0 0 265 323\"><use xlink:href=\"#file\"></use></svg>").data

/-- JavaScript `entry.size || -1` (the `data-order` attribute): size 0 and a
missing size are both falsy and give -1. -/
def sizeOrder (e : ListingEntry) : Int :=
  match e.size with
  | some n => if n = 0 then -1 else n
  | none => -1

/-- JavaScript `entry.size || 0` (the displayed size). -/
def sizeDisplay (e : ListingEntry) : Int :=
  match e.size with
  | some n => n
  | none => 0

/-- Decimal rendering of an integer, as JavaScript string interpolation does. -/
def intText (i : Int) : List Char := (toString i).data

/-- One `<tr class="file">` data row of the listing table (the template
literal at lines 139-153, whitespace included). -/
def entryRow (e : ListingEntry) : List Char :=
  ("\n        <tr class=\"file\">\n          <td></td>\n          <td>\n            ").data
  ++ (if e.isDir then folderSvg else fileSvg)
  ++ ("\n            <a href=\"").data ++ e.url ++ ("\"><span class=\"name\">").data ++ e.name
  ++ ("</span></a>\n          </td>\n          <td data-order=\"").data ++ intText (sizeOrder e)
  ++ ("\">").data
  ++ (if e.isDir then ("&mdash;").data
      else ("<size>").data ++ intText (sizeDisplay e) ++ ("</size>").data)
  ++ ("</td>\n          <td class=\"hideable\">").data
  ++ (match e.modTime with
      | some t => if t.isEmpty then ("&mdash;").data else t
      | none => ("&mdash;").data)
  ++ ("</td>\n          <td class=\"hideable\"></td>\n        </tr>\n      ").data

/-- The simplified light template returned by `getLightTemplate`
(lines 159-187), transcribed verbatim; braces are written escaped. -/
def getLightTemplate : List Char :=
  ("<!DOCTYPE html>\n<html>\n<head>\n  <title>\x7b\x7b.Name\x7d\x7d</title>\n  <meta charset=\"utf-8\">\n  <meta name=\"viewport\" content=\"width=device-width, initial-scale=1.0\">\n  <style>\n    body \x7b font-family: sans-serif; margin: 20px; \x7d\n    table \x7b width: 100%; border-collapse: collapse; \x7d\n    th, td \x7b text-align: left; padding: 8px; border-bottom: 1px solid #ddd; \x7d\n    th \x7b background-color: #f2f2f2; \x7d\n    a \x7b text-decoration: none; color: #0066cc; \x7d\n    a:hover \x7b text-decoration: underline; \x7d\n    .name \x7b margin-left: 0.5em; \x7d\n  </style>\n</head>\n<body>\n  <h1>\x7b\x7brange $i, $crumb := .Breadcrumb\x7d\x7d<a href=\"\x7b\x7b$crumb.Link\x7d\x7d\">\x7b\x7b$crumb.Text\x7d\x7d</a>\x7b\x7bif ne $i 0\x7d\x7d/\x7b\x7bend\x7d\x7d\x7b\x7bend\x7d\x7d</h1>\n  <table>\n    <thead>\n      <tr><th></th><th>Name</th><th>Size</th><th>Modified</th><th></th></tr>\n    </thead>\n    <tbody>\n      <tr><td></td><td><a href=\"..\"><span class=\"name\">Go up</span></a></td><td>&mdash;</td><td>&mdash;</td><td></td></tr>\n      \x7b\x7b- range .Entries\x7d\x7d\x7b\x7b- end\x7d\x7d\n    </tbody>\n  </table>\n</body>\n</html>").data

/-- Modelled from the spec: `getDarkTemplate` reads `src/templates/dark.html`,
a repository file that is not under src/; its contents are unknown (the spec
says only that a dark template exists) and no claim depends on them. -/
def getDarkTemplate : List Char := []

/-- The span of the template matched by `/{{\.Name}}/g`. -/
def nameTag : List Char := ("\x7b\x7b.Name\x7d\x7d").data

/-- The span of the light template matched by the breadcrumb regex
`/{{range \$i, \$crumb := \.Breadcrumb}}.*{{end}}/g` (greedy, to the last
`{{end}}` of the heading line). -/
def breadcrumbTag : List Char :=
  ("\x7b\x7brange $i, $crumb := .Breadcrumb\x7d\x7d<a href=\"\x7b\x7b$crumb.Link\x7d\x7d\">\x7b\x7b$crumb.Text\x7d\x7d</a>\x7b\x7bif ne $i 0\x7d\x7d/\x7b\x7bend\x7d\x7d\x7b\x7bend\x7d\x7d").data

/-- The span of the light template matched by
`/{{- range \.Entries}}.*{{- end}}/gs`. -/
def entriesTag : List Char := ("\x7b\x7b- range .Entries\x7d\x7d\x7b\x7b- end\x7d\x7d").data

/-- The breadcrumb pairs (text, link) of `generateHTML` (lines 124-129):
the non-empty path segments, each linked to the path prefix up to it, with
(`Home`, `/`) prepended. -/
def breadcrumbItems (currentPath : List Char) : List (List Char × List Char) :=
  let breadcrumbs := (splitSep (Char.ofNat 47) currentPath).filter (fun x => !x.isEmpty)
  ((("Home").data, ("/").data)) ::
    breadcrumbs.mapIdx (fun i crumb =>
      (crumb, ("/").data ++ joinWith (("/").data) (breadcrumbs.take (i + 1))))

/-- One rendered breadcrumb anchor. -/
def crumbAnchor (c : List Char × List Char) : List Char :=
  ("<a href=\"").data ++ c.2 ++ ("\">").data ++ c.1 ++ ("</a>").data

/-- `generateHTML` (lines 123-155).  The source substitutes into the template
with three global regex replaces; on the embedded template each regex matches
exactly the literal spans `nameTag`, `breadcrumbTag` and `entriesTag`, so the
substitution is embedded as literal replacement of those spans, applied in
source order. -/
def generateHTML (entries : List ListingEntry) (currentPath : List Char) (isDarkMode : Bool) : List Char :=
  let template := if isDarkMode then getDarkTemplate else getLightTemplate
  replaceAll entriesTag (joinWith [] (entries.map entryRow))
    (replaceAll breadcrumbTag (joinWith (("/").data) ((breadcrumbItems currentPath).map crumbAnchor))
      (replaceAll nameTag (if currentPath.isEmpty then ("Root").data else currentPath) template))

/-! ## The HTTP handler (`module.exports`, src/api/index.js 195-263)

The handler is embedded over the request, the environment, and the parsed
records of the listing subprocess; it models the success path of the
provisioning/config/subprocess steps (their failures raise to the catch-all
500 branch, which no claim exercises).  Response headers are accumulated in
`setHeader` order. -/

/-- The environment variables the handler reads. -/
structure Env where
  username : Option (List Char)
  password : Option (List Char)
  configBase64 : Option (List Char)
  configUrl : Option (List Char)
  darkMode : Option (List Char)
deriving DecidableEq

/-- The parts of an inbound request the handler inspects. -/
structure Request where
  method : List Char
  url : List Char
  authorization : Option (List Char)
deriving DecidableEq

/-- The body the handler sends. -/
inductive Body
  | empty
  | jsonError (msg : List Char)
  | html (content : List Char)
deriving DecidableEq

/-- The response: status code, headers in set order, body. -/
structure Response where
  status : Nat
  headers : List (List Char × List Char)
  body : Body
deriving DecidableEq

/-- JavaScript truthiness of an optional environment string: absent and empty
are falsy. -/
def isTruthy : Option (List Char) → Bool
  | none => false
  | some s => !s.isEmpty

/-- The three CORS headers set at lines 198-200. -/
def corsHeaders : List (List Char × List Char) :=
  [((("Access-Control-Allow-Origin").data, ("*").data)),
   ((("Access-Control-Allow-Methods").data, ("GET, POST, OPTIONS").data)),
   ((("Access-Control-Allow-Headers").data, ("Content-Type").data))]

/-- The challenge header set at line 218. -/
def wwwAuthenticate : List Char × List Char :=
  ((("WWW-Authenticate").data, ("Basic realm=\"Rclone Index\"").data))

/-- The preflight short-circuit response (lines 202-205). -/
def optionsResponse : Response :=
  { status := 200, headers := corsHeaders, body := Body.empty }

/-- The 401 sent when the authorization header is missing or not Basic
(lines 217-221): it carries the `WWW-Authenticate` challenge. -/
def authChallengeResponse : Response :=
  { status := 401, headers := corsHeaders ++ [wwwAuthenticate],
    body := Body.jsonError (("Authentication required").data) }

/-- The 401 sent on a failed credential comparison (lines 224-227): no
`WWW-Authenticate` header is set on this path. -/
def invalidCredsResponse : Response :=
  { status := 401, headers := corsHeaders,
    body := Body.jsonError (("Invalid credentials").data) }

/-- Line 223: decode the credentials after `'Basic '` and split at colons;
the destructuring takes element 0 as username and element 1 as password. -/
def authParts (auth : List Char) : List (List Char) :=
  splitSep (Char.ofNat 58) (base64Decode (auth.drop 6))

/-- Line 250: `process.env.DARK_MODE?.toLowerCase() === 'true'`. -/
def darkModeOn (env : Env) : Bool :=
  match env.darkMode with
  | some s => s.map Char.toLower == ("true").data
  | none => false

/-- The success tail of the handler (lines 240-254): normalize the records and
send the rendered page. -/
def serveListing (env : Env) (requestPath : List Char) (entries : List RawEntry) : Response :=
  { status := 200
    headers := corsHeaders ++ [((("Content-Type").data, ("text/html").data))]
    body := Body.html (generateHTML (formatEntries requestPath entries) requestPath (darkModeOn env)) }

/-- The exported request handler (lines 195-263).  After the CORS headers and
the OPTIONS short-circuit it provisions the binary and the config (filesystem
effects, embedded separately as `setupRclone` and `setupConfig`), derives the
request path, checks basic auth when both `USERNAME` and `PASSWORD` are
truthy, runs the listing subprocess, and renders the page.  There is no
check of the HTTP method besides the OPTIONS test. -/
def handler (env : Env) (req : Request) (entries : List RawEntry) : Response :=
  if req.method = ("OPTIONS").data then optionsResponse
  else
    let requestPath := if req.url = ("/").data then [] else req.url.drop 1
    if isTruthy env.username && isTruthy env.password then
      match req.authorization with
      | none => authChallengeResponse
      | some auth =>
        if !(("Basic ").data.isPrefixOf auth) then authChallengeResponse
        else
          let parts := authParts auth
          if some (parts.headD []) ≠ env.username ∨ parts[1]? ≠ env.password then
            invalidCredsResponse
          else serveListing env requestPath entries
    else serveListing env requestPath entries

/-! ## Lemmas about the string primitives -/

theorem splitSep_ne_nil (sep : Char) (s : List Char) : splitSep sep s ≠ [] := by
  cases s with
  | nil => simp [splitSep]
  | cons c rest =>
    simp only [splitSep]
    by_cases h : c = sep
    · simp [h]
    · simp only [if_neg h]
      cases hs : splitSep sep rest <;> simp

theorem mem_splitSep_not_sep {sep : Char} {s x : List Char}
    (hx : x ∈ splitSep sep s) : sep ∉ x := by
  induction s generalizing x with
  | nil =>
    simp only [splitSep, List.mem_singleton] at hx
    simp [hx]
  | cons c rest ih =>
    simp only [splitSep] at hx
    by_cases h : c = sep
    · rw [if_pos h] at hx
      rcases List.mem_cons.mp hx with h1 | h1
      · simp [h1]
      · exact ih h1
    · rw [if_neg h] at hx
      cases hs : splitSep sep rest with
      | nil => exact absurd hs (splitSep_ne_nil sep rest)
      | cons l ls =>
        rw [hs] at hx
        rcases List.mem_cons.mp hx with h1 | h1
        · have hl : sep ∉ l := ih (hs ▸ List.mem_cons_self l ls)
          subst h1
          simp only [List.mem_cons]
          rintro (h2 | h2)
          · exact h h2.symm
          · exact hl h2
        · exact ih (hs ▸ List.mem_cons_of_mem l h1)

theorem containsSub_iff {p s : List Char} : containsSub p s = true ↔ p <:+: s := by
  induction s with
  | nil =>
    simp only [containsSub, List.isEmpty_iff]
    constructor
    · intro h; simp [h]
    · intro h; exact List.eq_nil_of_infix_nil h
  | cons c rest ih =>
    simp only [containsSub, Bool.or_eq_true, List.isPrefixOf_iff_prefix, ih]
    exact (List.infix_cons_iff).symm

/-! ## Lemmas about the combine-section synthesis -/

theorem ensureCombine_of_contains {s : List Char}
    (h : containsSub combinePat s = true) : ensureCombine s = s := by
  simp [ensureCombine, h]

theorem combinePat_infix_tag (up : List Char) : combinePat <:+: combineTag ++ up := by
  have htag : combineTag =
      ("\n\n").data ++ combinePat ++ ("\ntype = combine\nupstreams = ").data := by decide
  rw [htag]
  exact ⟨("\n\n").data, ("\ntype = combine\nupstreams = ").data ++ up, by
    simp [List.append_assoc]⟩

theorem ensureCombine_contains (s : List Char) :
    containsSub combinePat (ensureCombine s) =
      (containsSub combinePat s || !(sectionHeaders s).isEmpty) := by
  by_cases hc : containsSub combinePat s = true
  · simp [ensureCombine_of_contains hc, hc]
  · have hc' : containsSub combinePat s = false := by
      simpa using hc
    cases hh : sectionHeaders s with
    | nil => simp [ensureCombine, hc', hh]
    | cons n ns =>
      have heq : ensureCombine s =
          s ++ combineTag ++ joinWith ((" ").data) ((n :: ns).map mkUpstream) := by
        simp [ensureCombine, hc', hh]
      rw [heq, hc']
      simp only [Bool.false_or, List.isEmpty_cons, Bool.not_false]
      rw [containsSub_iff]
      rcases combinePat_infix_tag (joinWith ((" ").data) ((n :: ns).map mkUpstream)) with ⟨x, y, hxy⟩
      exact ⟨s ++ x, y, by
        simp only [List.append_assoc] at hxy ⊢
        rw [hxy]⟩

theorem headerName_no_rbracket {l n : List Char}
    (h : headerName l = some n) : Char.ofNat 93 ∉ n := by
  cases l with
  | nil => simp [headerName] at h
  | cons c rest =>
    simp only [headerName] at h
    split_ifs at h with h1 h2
    · have hn' : n = rest.takeWhile (fun x => x ≠ Char.ofNat 93) :=
        (Option.some.injEq _ _ ▸ h).symm
      intro hm
      have := List.mem_takeWhile_imp (hn' ▸ hm)
      simp at this

theorem scanHeadersGo_no_rbracket :
    ∀ (fuel : Nat) (atLineStart : Bool) (s n : List Char),
      n ∈ scanHeadersGo fuel atLineStart s → Char.ofNat 93 ∉ n := by
  intro fuel
  induction fuel with
  | zero =>
    intro atLineStart s n hn
    cases s <;> simp [scanHeadersGo] at hn
  | succ fuel ih =>
    intro atLineStart s n hn
    cases s with
    | nil => simp [scanHeadersGo] at hn
    | cons c rest =>
      cases atLineStart with
      | false =>
        simp only [scanHeadersGo, Bool.false_eq_true, if_false] at hn
        exact ih _ _ _ hn
      | true =>
        simp only [scanHeadersGo, if_true] at hn
        cases hh : headerName (c :: rest) with
        | none =>
          rw [hh] at hn
          exact ih _ _ _ hn
        | some name =>
          rw [hh] at hn
          rcases List.mem_cons.mp hn with h1 | h1
          · exact h1 ▸ headerName_no_rbracket hh
          · exact ih _ _ _ h1

theorem sectionHeaders_no_rbracket {s n : List Char}
    (hn : n ∈ sectionHeaders s) : Char.ofNat 93 ∉ n :=
  scanHeadersGo_no_rbracket _ _ _ _ hn

theorem mkUpstream_not_mem {n : List Char} {d : Char}
    (h : d ∉ n) (h1 : d ∉ ("=").data) (h2 : d ∉ (":").data) : d ∉ mkUpstream n := by
  simp only [mkUpstream, List.append_assoc, List.mem_append]
  rintro (hm | hm | hm | hm)
  · exact h hm
  · exact h1 hm
  · exact h hm
  · exact h2 hm

theorem joinWith_space_not_mem {parts : List (List Char)} {d : Char}
    (hsep : d ∉ (" ").data) (h : ∀ x ∈ parts, d ∉ x) :
    d ∉ joinWith ((" ").data) parts := by
  induction parts with
  | nil => simp [joinWith]
  | cons x xs ih =>
    cases xs with
    | nil => exact h x (List.mem_singleton.mpr rfl)
    | cons y ys =>
      simp only [joinWith, List.append_assoc, List.mem_append]
      rintro (h1 | h1 | h1)
      · exact h x (List.mem_cons_self x _) h1
      · exact hsep h1
      · exact ih (fun z hz => h z (List.mem_cons_of_mem x hz)) h1

/-! ## Counting occurrences of the `[combine]` header text -/

theorem countSub_eq_zero_of_not_contains {pat s : List Char}
    (h : containsSub pat s = false) : countSub pat s = 0 := by
  induction s with
  | nil =>
    simp only [containsSub] at h
    simp [countSub, h]
  | cons c rest ih =>
    simp only [containsSub, Bool.or_eq_false_iff] at h
    simp [countSub, h.1, ih h.2]

theorem isPrefixOf_stop (c : Char) :
    ∀ (pat : List Char), c ∉ pat →
      ∀ (a b : List Char), pat.isPrefixOf (a ++ c :: b) = pat.isPrefixOf a := by
  intro pat
  induction pat with
  | nil => intro _ a b; simp [List.isPrefixOf]
  | cons p ps ih =>
    intro hc a b
    cases a with
    | nil =>
      have hpc : (p == c) = false :=
        beq_eq_false_iff_ne.mpr (fun h => hc (h ▸ List.mem_cons_self p ps))
      simp [List.isPrefixOf, hpc]
    | cons x a' =>
      simp only [List.cons_append, List.isPrefixOf, List.append_eq]
      rw [ih (fun hm => hc (List.mem_cons_of_mem p hm)) a' b]

theorem countSub_append_cons {pat : List Char} (hne : pat ≠ []) (c : Char)
    (hc : c ∉ pat) (a b : List Char) :
    countSub pat (a ++ c :: b) = countSub pat a + countSub pat (c :: b) := by
  induction a with
  | nil =>
    have h0 : countSub pat [] = 0 := by
      cases pat with
      | nil => exact absurd rfl hne
      | cons p ps => simp [countSub, List.isEmpty]
    simp [h0]
  | cons x a' ih =>
    have hx := isPrefixOf_stop c pat hc (x :: a') b
    simp only [List.cons_append] at hx
    simp only [List.cons_append, countSub, List.append_eq]
    simp only [hx]
    rw [ih]
    simp only [countSub]
    rw [← Nat.add_assoc]

theorem countSub_eq_zero_of_missing {pat s : List Char} (d : Char)
    (hd : d ∈ pat) (hs : d ∉ s) : countSub pat s = 0 := by
  induction s with
  | nil =>
    cases pat with
    | nil => simp at hd
    | cons p ps => simp [countSub, List.isEmpty]
  | cons c rest ih =>
    have h1 : pat.isPrefixOf (c :: rest) = false := by
      rw [Bool.eq_false_iff]
      intro hp
      exact hs ((List.isPrefixOf_iff_prefix.mp hp).subset hd)
    simp [countSub, h1, ih (fun hm => hs (List.mem_cons_of_mem c hm))]

theorem countSub_combineBlock (up : List Char) (hup : Char.ofNat 93 ∉ up) :
    countSub combinePat (combineTag ++ up) = 1 := by
  have htag : combineTag ++ up = ("\n\n[combine]").data ++ Char.ofNat 10 ::
      (("type = combine\nupstreams = ").data ++ up) := by
    have h0 : combineTag = ("\n\n[combine]").data ++ Char.ofNat 10 ::
        ("type = combine\nupstreams = ").data := by decide
    rw [h0, List.append_assoc]
    rfl
  rw [htag, countSub_append_cons (by decide) (Char.ofNat 10) (by decide)]
  have hB : countSub combinePat (Char.ofNat 10 ::
      (("type = combine\nupstreams = ").data ++ up)) = 0 := by
    apply countSub_eq_zero_of_missing (Char.ofNat 93) (by decide)
    simp only [List.mem_cons, List.mem_append]
    rintro (hm | hm | hm)
    · exact absurd hm (by decide)
    · exact absurd hm (by decide)
    · exact hup hm
  rw [hB]
  decide

/-! ## Claim theorems -/

/-- C1 (counterexample): the claim quantifies over every config text with at
least one distinct section header and no `[combine]` section.  The text
`"[a]\nx = [combine]"` has exactly one section header `a` and no `[combine]`
section, yet `setupConfig` appends nothing, because its guard tests substring
containment of `'[combine]'`, which also matches occurrences outside any
section header. -/
theorem c1_counterexample :
    sectionHeaders (("[a]\nx = [combine]").data) = [("a").data]
    ∧ ("combine").data ∉ sectionHeaders (("[a]\nx = [combine]").data)
    ∧ ensureCombine (("[a]\nx = [combine]").data) = ("[a]\nx = [combine]").data := by
  refine ⟨by decide, by decide, by decide⟩

/-- C1 (amended): for any config text on which the header regex finds N >= 1
distinct matches and which contains no occurrence of the substring
`[combine]`, `setupConfig` (the `ensureCombine` step) appends exactly one
`[combine]` section: the result is the text followed by `combineTag` and the
space-joined `name=name:` entries — exactly N of them, in match order (a name
may span lines, since `[^\]]` matches newlines) — and the resulting config
contains exactly one occurrence of the section-header text `[combine]`. -/
theorem c1_ensureConfig_appends_combine (s : List Char)
    (hc : containsSub combinePat s = false)
    (hnodup : (sectionHeaders s).Nodup)
    (hne : sectionHeaders s ≠ []) :
    ensureCombine s =
      s ++ combineTag ++ joinWith ((" ").data) ((sectionHeaders s).map mkUpstream)
    ∧ countSub combinePat (ensureCombine s) = 1
    ∧ ((sectionHeaders s).map mkUpstream).length = (sectionHeaders s).length := by
  have heq : ensureCombine s =
      s ++ combineTag ++ joinWith ((" ").data) ((sectionHeaders s).map mkUpstream) := by
    cases hh : sectionHeaders s with
    | nil => exact absurd hh hne
    | cons n ns => simp [ensureCombine, hc, hh]
  have hup : Char.ofNat 93 ∉ joinWith ((" ").data) ((sectionHeaders s).map mkUpstream) := by
    apply joinWith_space_not_mem (by decide)
    intro x hx
    rcases List.mem_map.mp hx with ⟨n, hn, rfl⟩
    exact mkUpstream_not_mem (sectionHeaders_no_rbracket hn) (by decide) (by decide)
  refine ⟨heq, ?_, by simp⟩
  rw [heq, List.append_assoc]
  have hT : combineTag ++ joinWith ((" ").data) ((sectionHeaders s).map mkUpstream) =
      Char.ofNat 10 :: (("\n[combine]\ntype = combine\nupstreams = ").data ++
        joinWith ((" ").data) ((sectionHeaders s).map mkUpstream)) := by
    rw [show combineTag = Char.ofNat 10 :: ("\n[combine]\ntype = combine\nupstreams = ").data
      from by decide]
    rfl
  rw [hT, countSub_append_cons (by decide) (Char.ofNat 10) (by decide), ← hT]
  rw [countSub_eq_zero_of_not_contains hc, countSub_combineBlock _ hup]

/-- C1 (witness): the amended theorem applied to the config text
`"[x]\n[a\nb]"`, whose second regex match spans a newline: the appended
upstreams value is `x=x: a\nb=a\nb:`, with exactly two entries. -/
theorem c1_witness :
    containsSub combinePat (("[x]\n[a\nb]").data) = false
    ∧ (sectionHeaders (("[x]\n[a\nb]").data)).Nodup
    ∧ sectionHeaders (("[x]\n[a\nb]").data) = [("x").data, ("a\nb").data]
    ∧ joinWith ((" ").data) ((sectionHeaders (("[x]\n[a\nb]").data)).map mkUpstream) =
        ("x=x: a\nb=a\nb:").data
    ∧ ensureCombine (("[x]\n[a\nb]").data) =
        ("[x]\n[a\nb]").data ++ combineTag ++
          joinWith ((" ").data) ((sectionHeaders (("[x]\n[a\nb]").data)).map mkUpstream)
    ∧ countSub combinePat (ensureCombine (("[x]\n[a\nb]").data)) = 1 := by
  refine ⟨by decide, by decide, by decide, by decide, ?_, ?_⟩
  · exact (c1_ensureConfig_appends_combine _ (by decide) (by decide) (by decide)).1
  · exact (c1_ensureConfig_appends_combine _ (by decide) (by decide) (by decide)).2.1

/-- C3 (counterexample): the claim asserts that after `setupConfig` the config
always contains a `[combine]` section, explicitly including a decoded
`CONFIG_BASE64` blob with no section headers.  For the blob `"hello"` the
header enumeration is empty (`match` returns null), nothing is appended, and
the result contains no `[combine]` at all. -/
theorem c3_counterexample :
    setupConfig (ConfigSource.fromBase64 (("hello").data)) = ("hello").data
    ∧ containsSub combinePat (setupConfig (ConfigSource.fromBase64 (("hello").data))) = false := by
  refine ⟨by decide, by decide⟩

/-- C3 (amended): after `setupConfig` returns, the config contains
`[combine]` exactly when the established base text already contains the
substring `[combine]` or has at least one section header (from which the
composite section is derived in header-appearance order and appended); a
`CONFIG_BASE64` blob with neither is written back unchanged and yields a
config without a composite namespace. -/
theorem c3_combine_presence (src : ConfigSource) :
    containsSub combinePat (setupConfig src) =
      (containsSub combinePat (baseConfigText src)
        || !(sectionHeaders (baseConfigText src)).isEmpty) :=
  ensureCombine_contains (baseConfigText src)

/-- C4 (confirmed): `setupConfig` is idempotent with respect to the composite
section: on config text that contains `[combine]` any number of repeated
synthesis passes returns the text unchanged, and one pass is always a fixed
point of a second pass, so a second `[combine]` section is never appended. -/
theorem c4_ensureConfig_idempotent (s : List Char) :
    (containsSub combinePat s = true →
      ∀ n : Nat, Nat.iterate ensureCombine n s = s)
    ∧ ensureCombine (ensureCombine s) = ensureCombine s := by
  constructor
  · intro h n
    induction n with
    | zero => rfl
    | succ n ih => rw [Function.iterate_succ_apply, ensureCombine_of_contains h, ih]
  · by_cases hc : containsSub combinePat s = true
    · simp [ensureCombine_of_contains hc]
    · have hc' : containsSub combinePat s = false := by simpa using hc
      cases hh : sectionHeaders s with
      | nil =>
        have hfix : ensureCombine s = s := by simp [ensureCombine, hc', hh]
        rw [hfix]
        exact hfix
      | cons n ns =>
        apply ensureCombine_of_contains
        rw [ensureCombine_contains s, hh]
        simp

/-- C4 (witness): the idempotence theorem applied to the default placeholder
config, which already contains `[combine]`. -/
theorem c4_witness :
    containsSub combinePat (("[combine]\ntype = alias\nremote = dummy").data) = true
    ∧ Nat.iterate ensureCombine 3 (("[combine]\ntype = alias\nremote = dummy").data) =
        ("[combine]\ntype = alias\nremote = dummy").data := by
  refine ⟨by decide, ?_⟩
  exact (c4_ensureConfig_idempotent _).1 (by decide) 3

/-- C8 (counterexample): in a world where everything up to the install
succeeds and `fs.unlinkSync('/tmp/rclone.zip')` throws, the binary is already
installed at the canonical path, yet `setupRclone` does not succeed: the
failure propagates through the catch handler (which logs and rethrows), so
the call fails instead of returning the binary path. -/
theorem c8_counterexample :
    setupRclone
        { binaryExists := false, fetchOk := true, archiveHasBinary := true,
          renameOk := true, chmodOk := true, unlinkZipOk := false,
          extractedDirExists := true, extractedDirIsTmp := false, rmDirOk := true } =
      { result := Except.error (("unlink failed").data),
        binaryInstalled := true, loggedError := true } := by decide

/-- C8 (amended): a failure while deleting the downloaded archive or the
extraction subdirectory after the binary has been installed is logged by the
catch handler and rethrown: the call fails (it does not return the binary
path) even though the binary remains installed. -/
theorem c8_cleanup_failure_fatal (w : ProvisionWorld)
    (h1 : w.binaryExists = false) (h2 : w.fetchOk = true)
    (h3 : w.archiveHasBinary = true) (h4 : w.renameOk = true)
    (h5 : w.chmodOk = true)
    (h6 : w.unlinkZipOk = false
      ∨ (w.unlinkZipOk = true ∧ w.extractedDirExists = true
          ∧ w.extractedDirIsTmp = false ∧ w.rmDirOk = false)) :
    (setupRclone w).binaryInstalled = true
    ∧ (setupRclone w).loggedError = true
    ∧ (setupRclone w).result.isOk = false := by
  rcases h6 with h6 | ⟨h6, h7, h8, h9⟩
  · simp [setupRclone, h1, h2, h3, h4, h5, h6, Except.isOk, Except.toBool]
  · simp [setupRclone, h1, h2, h3, h4, h5, h6, h7, h8, h9, Except.isOk, Except.toBool]

/-- C8 (witness): the amended theorem applied to the failing-rmdir world. -/
theorem c8_witness :
    (setupRclone
        { binaryExists := false, fetchOk := true, archiveHasBinary := true,
          renameOk := true, chmodOk := true, unlinkZipOk := true,
          extractedDirExists := true, extractedDirIsTmp := false, rmDirOk := false }).binaryInstalled = true
    ∧ (setupRclone
        { binaryExists := false, fetchOk := true, archiveHasBinary := true,
          renameOk := true, chmodOk := true, unlinkZipOk := true,
          extractedDirExists := true, extractedDirIsTmp := false, rmDirOk := false }).result.isOk = false := by
  have h := c8_cleanup_failure_fatal
    { binaryExists := false, fetchOk := true, archiveHasBinary := true,
      renameOk := true, chmodOk := true, unlinkZipOk := true,
      extractedDirExists := true, extractedDirIsTmp := false, rmDirOk := false }
    rfl rfl rfl rfl rfl (Or.inr ⟨rfl, rfl, rfl, rfl⟩)
  exact ⟨h.1, h.2.2⟩

/-- C2 (confirmed): on any trace in which the process has produced only
stream data by the time the 25-second timer fires (it did not terminate
within the timeout), `executeRclone` settles with the timeout rejection, and
in particular never resolves with a `ProcessResult` holding the partial
output accumulated so far. -/
theorem c2_timeout_rejects (pre post : List PEvent) (o e : List Char)
    (h : ∀ ev ∈ pre, isDataEvent ev = true) :
    executeRclone (pre ++ PEvent.timeout :: post) o e = some RcloneResult.timeoutError
    ∧ ∀ so se, executeRclone (pre ++ PEvent.timeout :: post) o e ≠ some (RcloneResult.ok so se) := by
  have main : ∀ (pre : List PEvent), (∀ ev ∈ pre, isDataEvent ev = true) →
      ∀ (o e : List Char),
      executeRclone (pre ++ PEvent.timeout :: post) o e = some RcloneResult.timeoutError := by
    intro pre hpre
    induction pre with
    | nil => intro o e; rfl
    | cons ev rest ih =>
      have hev := hpre ev (List.mem_cons_self ev rest)
      have hrest : ∀ x ∈ rest, isDataEvent x = true :=
        fun x hx => hpre x (List.mem_cons_of_mem ev hx)
      intro o e
      cases ev with
      | out s => simpa only [List.cons_append, executeRclone] using ih hrest (o ++ s) e
      | err s => simpa only [List.cons_append, executeRclone] using ih hrest o (e ++ s)
      | close c => simp [isDataEvent] at hev
      | timeout => simp [isDataEvent] at hev
  refine ⟨main pre h o e, ?_⟩
  intro so se
  rw [main pre h o e]
  simp

/-- C2 (witness): the theorem applied to a process that wrote a partial chunk
and was then timed out; the later close event is ignored. -/
theorem c2_witness :
    (∀ ev ∈ [PEvent.out (("partial").data)], isDataEvent ev = true)
    ∧ executeRclone ([PEvent.out (("partial").data)] ++ PEvent.timeout :: [PEvent.close 0]) [] [] =
        some RcloneResult.timeoutError := by
  refine ⟨by decide, ?_⟩
  exact (c2_timeout_rejects [PEvent.out (("partial").data)] [PEvent.close 0] [] [] (by decide)).1

/-- The browsable URL exactly as the claim words it: the request path joined
with the entry name, with one separating slash inserted only when the request
path is non-empty, a leading slash, and a trailing slash exactly when the
entry is a directory. -/
def urlSpec (requestPath name : List Char) (isDir : Bool) : List Char :=
  (if requestPath.isEmpty then ("/").data ++ name
   else ("/").data ++ requestPath ++ ("/").data ++ name)
  ++ (if isDir then ("/").data else [])

/-- C6 (confirmed): for every raw record and request path the derived URL is
the claim's join of request path and entry name, and normalizing
`{"Name":"a.txt","IsDir":false,"Size":10}` under request path `docs` yields
exactly one entry with URL `/docs/a.txt` and a false directory flag. -/
theorem c6_normalize_url (requestPath : List Char) (e : RawEntry) :
    (formatEntry requestPath e).url = urlSpec requestPath e.Name e.IsDir
    ∧ formatEntries (("docs").data)
        [{ Name := ("a.txt").data, IsDir := false, Size := some 10, ModTime := none }] =
      [{ name := ("a.txt").data, url := ("/docs/a.txt").data, isDir := false,
         size := some 10, modTime := none }] := by
  constructor
  · by_cases h : requestPath.isEmpty
    · simp [formatEntry, urlSpec, h, List.isEmpty_iff.mp h]
    · simp [formatEntry, urlSpec, h]
  · decide

/-- C5 (counterexample): with `USERNAME=admin` and `PASSWORD=secret`
configured, a request carrying well-formed Basic credentials for the wrong
password (`admin:wrong`, encoded `YWRtaW46d3Jvbmc=`) is answered with 401 but
WITHOUT the `WWW-Authenticate` challenge header: only the missing/malformed
branch sets that header. -/
theorem c5_counterexample :
    (handler
        { username := some (("admin").data), password := some (("secret").data),
          configBase64 := none, configUrl := none, darkMode := none }
        { method := ("GET").data, url := ("/").data,
          authorization := some (("Basic YWRtaW46d3Jvbmc=").data) } []).status = 401
    ∧ wwwAuthenticate ∉ (handler
        { username := some (("admin").data), password := some (("secret").data),
          configBase64 := none, configUrl := none, darkMode := none }
        { method := ("GET").data, url := ("/").data,
          authorization := some (("Basic YWRtaW46d3Jvbmc=").data) } []).headers := by
  refine ⟨by decide, by decide⟩

/-- C5 (amended): when both `USERNAME` and `PASSWORD` are configured (truthy),
a non-OPTIONS request with a missing or malformed `Authorization` header is
answered with 401 carrying the `WWW-Authenticate: Basic realm="Rclone Index"`
challenge, while a request whose decoded credentials do not match is answered
with 401 WITHOUT the challenge header. -/
theorem c5_auth_responses (env : Env) (req : Request) (entries : List RawEntry)
    (hu : isTruthy env.username = true) (hp : isTruthy env.password = true)
    (hm : req.method ≠ ("OPTIONS").data) :
    (req.authorization = none → handler env req entries = authChallengeResponse)
    ∧ (∀ a, req.authorization = some a → ("Basic ").data.isPrefixOf a = false →
        handler env req entries = authChallengeResponse)
    ∧ (∀ a, req.authorization = some a → ("Basic ").data.isPrefixOf a = true →
        (some ((authParts a).headD []) ≠ env.username ∨ (authParts a)[1]? ≠ env.password) →
        handler env req entries = invalidCredsResponse) := by
  have hcond : (isTruthy env.username && isTruthy env.password) = true := by
    rw [hu, hp]; rfl
  refine ⟨?_, ?_, ?_⟩
  · intro ha
    simp [handler, if_neg hm, hcond, ha]
  · intro a ha hpre
    simp [handler, if_neg hm, hcond, ha, hpre]
  · intro a ha hpre hmis
    simp [handler, if_neg hm, hcond, ha, hpre]
    simp only [List.headD_eq_head?_getD] at hmis
    intro h1 h2
    rcases hmis with hmis | hmis
    · exact absurd h1 hmis
    · exact absurd h2 hmis

/-- C5 (witness): the amended theorem applied to a concrete environment, to a
request with no header and to a request with wrong credentials. -/
theorem c5_witness :
    handler
        { username := some (("admin").data), password := some (("secret").data),
          configBase64 := none, configUrl := none, darkMode := none }
        { method := ("GET").data, url := ("/").data, authorization := none } [] =
      authChallengeResponse
    ∧ handler
        { username := some (("admin").data), password := some (("secret").data),
          configBase64 := none, configUrl := none, darkMode := none }
        { method := ("GET").data, url := ("/").data,
          authorization := some (("Basic YWRtaW46d3Jvbmc=").data) } [] =
      invalidCredsResponse := by
  constructor
  · exact (c5_auth_responses
      { username := some (("admin").data), password := some (("secret").data),
        configBase64 := none, configUrl := none, darkMode := none }
      { method := ("GET").data, url := ("/").data, authorization := none } []
      (by decide) (by decide) (by decide)).1 rfl
  · exact (c5_auth_responses
      { username := some (("admin").data), password := some (("secret").data),
        configBase64 := none, configUrl := none, darkMode := none }
      { method := ("GET").data, url := ("/").data,
        authorization := some (("Basic YWRtaW46d3Jvbmc=").data) } []
      (by decide) (by decide) (by decide)).2.2 (("Basic YWRtaW46d3Jvbmc=").data) rfl
      (by decide) (Or.inr (by decide))

/-- C7 (counterexample): a POST request is not answered with any
method-not-allowed-equivalent response: the handler runs the full pipeline
and returns exactly what the same GET request returns — HTTP 200 with the
rendered listing page. -/
theorem c7_counterexample :
    handler { username := none, password := none, configBase64 := none,
              configUrl := none, darkMode := none }
        { method := ("POST").data, url := ("/").data, authorization := none } [] =
      handler { username := none, password := none, configBase64 := none,
                configUrl := none, darkMode := none }
        { method := ("GET").data, url := ("/").data, authorization := none } []
    ∧ (handler { username := none, password := none, configBase64 := none,
                 configUrl := none, darkMode := none }
        { method := ("POST").data, url := ("/").data, authorization := none } []).status = 200
    ∧ (handler { username := none, password := none, configBase64 := none,
                 configUrl := none, darkMode := none }
        { method := ("POST").data, url := ("/").data, authorization := none } []).body =
      Body.html (generateHTML [] [] false) := by
  refine ⟨rfl, rfl, rfl⟩

/-- C7 (amended): only OPTIONS requests are treated specially — they
short-circuit with HTTP 200 and an empty body; every request with any other
method, POST included, is processed identically to a GET request with the
same URL and headers (provisioning, config synthesis, auth and the listing
all run; there is no method-not-allowed response). -/
theorem c7_method_handling (env : Env) (req : Request) (entries : List RawEntry) :
    (req.method = ("OPTIONS").data → handler env req entries = optionsResponse)
    ∧ (req.method ≠ ("OPTIONS").data →
        handler env req entries =
          handler env { method := ("GET").data, url := req.url,
                        authorization := req.authorization } entries) := by
  constructor
  · intro h
    simp [handler, h]
  · intro h
    simp only [handler, if_neg h]
    rw [if_neg (by decide : ¬ ("GET").data = ("OPTIONS").data)]

/-- C7 (witness): the amended theorem applied to an OPTIONS request and to a
POST request. -/
theorem c7_witness :
    handler { username := none, password := none, configBase64 := none,
              configUrl := none, darkMode := none }
        { method := ("OPTIONS").data, url := ("/").data, authorization := none } [] =
      optionsResponse
    ∧ handler { username := none, password := none, configBase64 := none,
                configUrl := none, darkMode := none }
        { method := ("POST").data, url := ("/x").data, authorization := none } [] =
      handler { username := none, password := none, configBase64 := none,
                configUrl := none, darkMode := none }
        { method := ("GET").data, url := ("/x").data, authorization := none } [] := by
  constructor
  · exact (c7_method_handling
      { username := none, password := none, configBase64 := none,
        configUrl := none, darkMode := none }
      { method := ("OPTIONS").data, url := ("/").data, authorization := none } []).1 rfl
  · exact (c7_method_handling
      { username := none, password := none, configBase64 := none,
        configUrl := none, darkMode := none }
      { method := ("POST").data, url := ("/x").data, authorization := none } []).2 (by decide)

set_option maxRecDepth 200000 in
/-- C9 (counterexample): the page rendered for the root path with zero
entries still contains the `Go up` parent-navigation row — the light template
hard-codes that row in its `<tbody>` and `generateHTML` never removes it, so
the claim that the root page has no such row is false. -/
theorem c9_counterexample :
    containsSub (("Go up").data) (generateHTML [] [] false) = true := by decide

set_option maxRecDepth 200000 in
/-- C9 (amended): the page rendered for the root path (request path empty,
light mode) with no entries has zero `<tr class="file">` data rows, but it
does contain the static `Go up` row, which is present even at the root; the
handler serves exactly this page for a GET of `/` with no entries. -/
theorem c9_root_listing :
    countSub (("<tr class=\"file\">").data) (generateHTML [] [] false) = 0
    ∧ containsSub (("Go up").data) (generateHTML [] [] false) = true
    ∧ (handler { username := none, password := none, configBase64 := none,
                 configUrl := none, darkMode := none }
        { method := ("GET").data, url := ("/").data, authorization := none } []).body =
      Body.html (generateHTML [] [] false) := by
  refine ⟨by decide, by decide, rfl⟩

/-- C10 (confirmed): the credential comparison takes only the split segments
around the first colons of the decoded header, so when the configured
`PASSWORD` itself contains a colon, no decoded credential segment can ever
equal it and every request that reaches the auth check (any non-OPTIONS
method) is rejected with 401 — even one carrying exactly
`USERNAME:PASSWORD`, correctly base64-encoded. -/
theorem c10_colon_password_locks_out (env : Env) (req : Request)
    (entries : List RawEntry) (p : List Char)
    (hu : isTruthy env.username = true)
    (hpt : isTruthy env.password = true)
    (hp : env.password = some p)
    (hcolon : Char.ofNat 58 ∈ p)
    (hm : req.method ≠ ("OPTIONS").data) :
    (handler env req entries).status = 401 := by
  have hcond : (isTruthy env.username && isTruthy env.password) = true := by
    rw [hu, hpt]; rfl
  cases hauth : req.authorization with
  | none => simp [handler, if_neg hm, hcond, hauth, authChallengeResponse]
  | some a =>
    by_cases hpre : ("Basic ").data.isPrefixOf a
    · have hmis : (authParts a)[1]? ≠ env.password := by
        rw [hp]
        cases hq : (authParts a)[1]? with
        | none => simp
        | some x =>
          have hx : x ∈ authParts a := List.getElem?_mem hq
          have hnc : Char.ofNat 58 ∉ x := mem_splitSep_not_sep hx
          simp only [Ne, Option.some.injEq]
          intro hxp
          exact hnc (hxp ▸ hcolon)
      simp [handler, if_neg hm, hcond, hauth, hpre, if_pos (Or.inr hmis),
        invalidCredsResponse]
    · have hpre' : ("Basic ").data.isPrefixOf a = false := by
        rwa [Bool.not_eq_true] at hpre
      simp [handler, if_neg hm, hcond, hauth, hpre', authChallengeResponse]

/-- C10 (witness): with `USERNAME=admin`, `PASSWORD=p:w`, a GET request whose
`Authorization` header carries exactly `admin:p:w` correctly base64-encoded
is still rejected with 401. -/
theorem c10_witness :
    isTruthy (some (("admin").data)) = true
    ∧ Char.ofNat 58 ∈ (("p:w").data)
    ∧ (handler
        { username := some (("admin").data), password := some (("p:w").data),
          configBase64 := none, configUrl := none, darkMode := none }
        { method := ("GET").data, url := ("/").data,
          authorization := some (("Basic ").data ++ base64Encode (("admin:p:w").data)) } []).status = 401 := by
  refine ⟨by decide, by decide, ?_⟩
  exact c10_colon_password_locks_out
    { username := some (("admin").data), password := some (("p:w").data),
      configBase64 := none, configUrl := none, darkMode := none }
    { method := ("GET").data, url := ("/").data,
      authorization := some (("Basic ").data ++ base64Encode (("admin:p:w").data)) }
    [] (("p:w").data) (by decide) (by decide) rfl (by decide) (by decide)

end RcloneIndex
